import Mathlib

/-
Verification of the account-ledger and referral subsystem of the vless-shopbot
repository, `src/src/shop_bot/data_manager/database.py`.

The SQLite store is modelled shallowly:
- the `users` table is an association list `List (Int × User)` keyed by
  `telegram_id` (the PRIMARY KEY); a SQL `UPDATE ... WHERE telegram_id = ?`
  becomes a map over the list touching every matching row, and a
  `SELECT ... WHERE telegram_id = ?` + `fetchone()` becomes `List.find?`;
- the `transactions` table is a `List Transaction` with an explicit
  AUTOINCREMENT counter for `transaction_id`;
- SQLite `REAL` amounts are modelled as `ℚ`;
- the `referred_by` column (schema type INTEGER, nullable) is `Option Int`;
  Python's `str(current_ref).strip() == ""` test can then only succeed on
  `None`, since the decimal rendering of an integer is never empty;
- a Python function that swallows `sqlite3.Error` and returns a sentinel is
  modelled on the branch the claim is about (e.g. the UNIQUE-violation branch
  of `create_pending_transaction` returns the sentinel `0`).
-/

namespace ShopBot

/-- A row of the `users` table as created by `initialize_db`
(database.py, lines 26-39). -/
structure User where
  username : String
  total_spent : ℚ
  total_months : Int
  trial_used : Bool
  agreed_to_terms : Bool
  registration_date : Nat
  is_banned : Bool
  balance : ℚ
  referred_by : Option Int
  referral_balance : ℚ
  referral_balance_all : ℚ
  referral_start_bonus_received : Bool
deriving DecidableEq

/-- A row of the `transactions` table as created by `initialize_db`
(database.py, lines 51-65); `payment_id` is declared UNIQUE NOT NULL there. -/
structure Transaction where
  username : Option String
  transaction_id : Int
  payment_id : String
  user_id : Int
  status : String
  amount_rub : ℚ
  amount_currency : Option ℚ
  currency_name : Option String
  payment_method : Option String
  metadata : String
deriving DecidableEq

/-- The database state: the two tables the ledger claims touch, plus the
AUTOINCREMENT counter backing `transactions.transaction_id`. -/
structure DB where
  users : List (Int × User)
  transactions : List Transaction
  next_transaction_id : Int
deriving DecidableEq

/-- `SELECT * FROM users WHERE telegram_id = ?` followed by `fetchone()`. -/
def getUserRow (db : DB) (uid : Int) : Option User :=
  (db.users.find? (fun p => p.1 == uid)).map Prod.snd

/-- The effect of `UPDATE users SET ... WHERE telegram_id = ?` on one row. -/
def updateRow (uid : Int) (f : User → User) (p : Int × User) : Int × User :=
  if p.1 == uid then (p.1, f p.2) else p

/-- `UPDATE users SET ... WHERE telegram_id = ?`: rewrite every matching row. -/
def updateUser (db : DB) (uid : Int) (f : User → User) : DB :=
  { db with users := db.users.map (updateRow uid f) }

/-- `cursor.rowcount > 0` after an UPDATE keyed on `telegram_id`: true exactly
when a row with that key exists. -/
def userExists (db : DB) (uid : Int) : Bool :=
  (getUserRow db uid).isSome

/-- `get_balance` (database.py 1517-1526): `row[0] if row else 0.0`. -/
def get_balance (db : DB) (uid : Int) : ℚ :=
  match getUserRow db uid with
  | some u => u.balance
  | none => 0

/-- `get_referral_balance` (database.py 1506-1515). -/
def get_referral_balance (db : DB) (uid : Int) : ℚ :=
  match getUserRow db uid with
  | some u => u.referral_balance
  | none => 0

/-- `get_referral_balance_all` (database.py 1495-1504). -/
def get_referral_balance_all (db : DB) (uid : Int) : ℚ :=
  match getUserRow db uid with
  | some u => u.referral_balance_all
  | none => 0

/-- `add_to_balance` (database.py 1551-1560): unconditional
`UPDATE users SET balance = balance + ?`; returns `cursor.rowcount > 0`.
There is no sign check on `amount`. -/
def add_to_balance (db : DB) (user_id : Int) (amount : ℚ) : DB × Bool :=
  (updateUser db user_id (fun u => { u with balance := u.balance + amount }),
   userExists db user_id)

/-- `add_to_referral_balance` (database.py 1456-1463): unconditional
`UPDATE users SET referral_balance = referral_balance + ?`; returns nothing. -/
def add_to_referral_balance (db : DB) (user_id : Int) (amount : ℚ) : DB :=
  updateUser db user_id
    (fun u => { u with referral_balance := u.referral_balance + amount })

/-- `set_referral_balance_all` (database.py 1474-1481):
`UPDATE users SET referral_balance_all = ?`. -/
def set_referral_balance_all (db : DB) (user_id : Int) (value : ℚ) : DB :=
  updateUser db user_id (fun u => { u with referral_balance_all := value })

/-- `add_to_referral_balance_all` (database.py 1483-1493):
`UPDATE users SET referral_balance_all = referral_balance_all + ?`. -/
def add_to_referral_balance_all (db : DB) (user_id : Int) (amount : ℚ) : DB :=
  updateUser db user_id
    (fun u => { u with referral_balance_all := u.referral_balance_all + amount })

/-- `deduct_from_balance` (database.py 1562-1581): `amount <= 0` returns True
with no query; otherwise read the balance (`row[0] if row else 0.0`), fail if
`current < amount`, else `UPDATE users SET balance = balance - ?`. -/
def deduct_from_balance (db : DB) (user_id : Int) (amount : ℚ) : DB × Bool :=
  if amount ≤ 0 then (db, true)
  else if get_balance db user_id < amount then (db, false)
  else
    (updateUser db user_id (fun u => { u with balance := u.balance - amount }),
     true)

/-- `deduct_from_referral_balance` (database.py 1583-1602): same shape as
`deduct_from_balance`, on the `referral_balance` column. -/
def deduct_from_referral_balance (db : DB) (user_id : Int) (amount : ℚ) :
    DB × Bool :=
  if amount ≤ 0 then (db, true)
  else if get_referral_balance db user_id < amount then (db, false)
  else
    (updateUser db user_id
      (fun u => { u with referral_balance := u.referral_balance - amount }),
     true)

/-- The row inserted by `register_user_if_not_exists` for a new user: the
INSERT names telegram_id, username, registration_date and referred_by; every
other column takes its schema default. `referred_by` is stored verbatim. -/
def newUser (username : String) (now : Nat) (referred_by : Option Int) : User :=
  { username := username
    total_spent := 0
    total_months := 0
    trial_used := false
    agreed_to_terms := false
    registration_date := now
    is_banned := false
    balance := 0
    referred_by := referred_by
    referral_balance := 0
    referral_balance_all := 0
    referral_start_bonus_received := false }

/-- `register_user_if_not_exists` (database.py 1430-1454). A missing row is
inserted with `referred_by = referrer_id` as passed (no self-check on this
branch). An existing row gets its username refreshed, and `referred_by` is
back-filled only when `referrer_id` is truthy (non-`None`, non-zero), the
stored value is unset, and `referrer_id ≠ telegram_id`. -/
def register_user_if_not_exists (db : DB) (telegram_id : Int) (username : String)
    (referrer_id : Option Int) (now : Nat) : DB :=
  match getUserRow db telegram_id with
  | none =>
      { db with users := db.users ++ [(telegram_id, newUser username now referrer_id)] }
  | some row =>
      let db1 := updateUser db telegram_id (fun u => { u with username := username })
      match referrer_id with
      | none => db1
      | some r =>
          if r != 0 && row.referred_by.isNone && r != telegram_id then
            updateUser db1 telegram_id (fun u => { u with referred_by := some r })
          else db1

/-- Whether a transaction with the given `payment_id` exists; this is what the
UNIQUE NOT NULL constraint on `transactions.payment_id` tests on INSERT. -/
def hasPayment (db : DB) (pid : String) : Bool :=
  db.transactions.any (fun t => t.payment_id == pid)

/-- `create_pending_transaction` (database.py 1675-1687): INSERT a row with
status `pending` and return `cursor.lastrowid`; a UNIQUE violation on
`payment_id` raises `sqlite3.IntegrityError`, which the handler turns into the
sentinel return `0` with no row written. -/
def create_pending_transaction (db : DB) (payment_id : String) (user_id : Int)
    (amount_rub : ℚ) (metadata : String) : DB × Int :=
  if hasPayment db payment_id then
    (db, 0)
  else
    ({ db with
        transactions := db.transactions ++
          [{ username := none
             transaction_id := db.next_transaction_id
             payment_id := payment_id
             user_id := user_id
             status := "pending"
             amount_rub := amount_rub
             amount_currency := none
             currency_name := none
             payment_method := none
             metadata := metadata }]
        next_transaction_id := db.next_transaction_id + 1 },
     db.next_transaction_id)

/-- Whether a transaction with this `payment_id` exists in status `pending`:
the WHERE clause of `find_and_complete_ton_transaction`'s SELECT. -/
def pendingExists (db : DB) (pid : String) : Bool :=
  db.transactions.any (fun t => t.payment_id == pid && t.status == "pending")

/-- `find_and_complete_ton_transaction` (database.py 1689-1711):
`SELECT * FROM transactions WHERE payment_id = ? AND status = 'pending'`;
when no row matches (payment unknown OR already resolved) it returns `None`
unchanged; otherwise it marks the row paid and returns the stored metadata. -/
def find_and_complete_ton_transaction (db : DB) (payment_id : String)
    (amount_ton : ℚ) : DB × Option String :=
  match db.transactions.find?
      (fun t => t.payment_id == payment_id && t.status == "pending") with
  | none => (db, none)
  | some t =>
      ({ db with
          transactions := db.transactions.map (fun tr =>
            if tr.payment_id == payment_id then
              { tr with
                  status := "paid"
                  amount_currency := some amount_ton
                  currency_name := some "TON"
                  payment_method := some "TON" }
            else tr) },
       some t.metadata)

/-- One ledger call on a fixed account, as quantified over by the balance
claims: the two credit entry points and the two conditional debits. -/
inductive LedgerOp where
  | credit (amount : ℚ)
  | creditRef (amount : ℚ)
  | debit (amount : ℚ)
  | debitRef (amount : ℚ)
deriving DecidableEq

/-- Apply one ledger call to the store, discarding the returned flag. -/
def applyOp (db : DB) (uid : Int) : LedgerOp → DB
  | LedgerOp.credit a => (add_to_balance db uid a).1
  | LedgerOp.creditRef a => add_to_referral_balance db uid a
  | LedgerOp.debit a => (deduct_from_balance db uid a).1
  | LedgerOp.debitRef a => (deduct_from_referral_balance db uid a).1

/-- Run a sequence of ledger calls left to right. -/
def applyOps (db : DB) (uid : Int) : List LedgerOp → DB
  | [] => db
  | op :: rest => applyOps (applyOp db uid op) uid rest

/-- The credit calls of the sequence carry non-negative amounts. -/
def creditNonneg : LedgerOp → Bool
  | LedgerOp.credit a => decide (0 ≤ a)
  | LedgerOp.creditRef a => decide (0 ≤ a)
  | _ => true

/-- Both balances of the account are non-negative (a missing row reads as 0,
as in the source's `row[0] if row else 0.0`). -/
def balOK (db : DB) (uid : Int) : Prop :=
  0 ≤ get_balance db uid ∧ 0 ≤ get_referral_balance db uid

/-- Sum of the amounts of the `credit` (spendable) calls in a sequence. -/
def creditSum : List LedgerOp → ℚ
  | [] => 0
  | LedgerOp.credit a :: rest => a + creditSum rest
  | _ :: rest => creditSum rest

/-- Sum of the amounts of the `debit` (spendable) calls in a sequence. -/
def debitSum : List LedgerOp → ℚ
  | [] => 0
  | LedgerOp.debit a :: rest => a + debitSum rest
  | _ :: rest => debitSum rest

/-- Every spendable debit in the sequence carries a strictly positive
amount. -/
def debitsPositive : List LedgerOp → Bool
  | [] => true
  | LedgerOp.debit a :: rest => decide (0 < a) && debitsPositive rest
  | _ :: rest => debitsPositive rest

/-- Every spendable debit of the run reports success at the state it runs
in (the boolean `deduct_from_balance` returns). -/
def allDebitsSucceed (db : DB) (uid : Int) : List LedgerOp → Bool
  | [] => true
  | op :: rest =>
      (match op with
       | LedgerOp.debit a => (deduct_from_balance db uid a).2
       | _ => true)
      && allDebitsSucceed (applyOp db uid op) uid rest

/-- A concrete user row used to instantiate the theorems: balance 10,
referral balance 4, lifetime referral earnings 10, no referrer recorded. -/
def sampleUser : User :=
  { username := "alice"
    total_spent := 0
    total_months := 0
    trial_used := false
    agreed_to_terms := false
    registration_date := 0
    is_banned := false
    balance := 10
    referred_by := none
    referral_balance := 4
    referral_balance_all := 10
    referral_start_bonus_received := false }

/-- A store holding the single user 7 (`sampleUser`). -/
def dbOneUser : DB :=
  { users := [(7, sampleUser)], transactions := [], next_transaction_id := 1 }

/-- A store holding user 7 with spendable balance 0. -/
def dbZeroBal : DB :=
  { users := [(7, { sampleUser with balance := 0 })]
    transactions := []
    next_transaction_id := 1 }

/-- A store holding user 7 whose referrer is already recorded as user 3. -/
def dbRefSet : DB :=
  { users := [(7, { sampleUser with referred_by := some 3 })]
    transactions := []
    next_transaction_id := 1 }

/-- A store with no users at all. -/
def dbNoUsers : DB :=
  { users := [], transactions := [], next_transaction_id := 1 }

/-- A concrete pending transaction with payment id `P1`. -/
def sampleTxn : Transaction :=
  { username := none
    transaction_id := 1
    payment_id := "P1"
    user_id := 7
    status := "pending"
    amount_rub := 100
    amount_currency := none
    currency_name := none
    payment_method := none
    metadata := "m" }

/-- A store whose only transaction is the pending `P1`. -/
def dbPendingTxn : DB :=
  { users := [], transactions := [sampleTxn], next_transaction_id := 2 }

/-- A store whose only transaction is `P1`, already resolved as paid. -/
def dbPaidTxn : DB :=
  { users := []
    transactions := [{ sampleTxn with status := "paid" }]
    next_transaction_id := 2 }

/-! ### Basic lemmas about row lookup and row update -/

/-- Updating the rows keyed `uid` rewrites the looked-up row by `f` and
nothing else: lookup after `updateRow`-map is `Option.map f` of the lookup. -/
theorem findRow_map_updateRow (rows : List (Int × User)) (uid : Int)
    (f : User → User) :
    ((rows.map (updateRow uid f)).find? (fun p => p.1 == uid)).map Prod.snd
      = ((rows.find? (fun p => p.1 == uid)).map Prod.snd).map f := by
  induction rows with
  | nil => rfl
  | cons head tail ih =>
      obtain ⟨k, u⟩ := head
      by_cases hk : (k == uid) = true
      · rw [List.map_cons]
        rw [show updateRow uid f (k, u) = (k, f u) from by rw [updateRow, if_pos hk]]
        have h1 : List.find? (fun p => p.1 == uid)
            ((k, f u) :: List.map (updateRow uid f) tail) = some (k, f u) :=
          List.find?_cons_of_pos _ hk
        have h2 : List.find? (fun p => p.1 == uid) ((k, u) :: tail) = some (k, u) :=
          List.find?_cons_of_pos _ hk
        rw [h1, h2]
        rfl
      · rw [List.map_cons]
        rw [show updateRow uid f (k, u) = (k, u) from by rw [updateRow, if_neg hk]]
        have h1 : List.find? (fun p => p.1 == uid)
            ((k, u) :: List.map (updateRow uid f) tail)
            = List.find? (fun p => p.1 == uid) (List.map (updateRow uid f) tail) :=
          List.find?_cons_of_neg _ hk
        have h2 : List.find? (fun p => p.1 == uid) ((k, u) :: tail)
            = List.find? (fun p => p.1 == uid) tail :=
          List.find?_cons_of_neg _ hk
        rw [h1, h2]
        exact ih

/-- Rows keyed by a different id are untouched by `updateRow`-map. -/
theorem findRow_map_updateRow_ne (rows : List (Int × User)) (uid v : Int)
    (f : User → User) (hne : v ≠ uid) :
    (rows.map (updateRow uid f)).find? (fun p => p.1 == v)
      = rows.find? (fun p => p.1 == v) := by
  induction rows with
  | nil => rfl
  | cons head tail ih =>
      obtain ⟨k, u⟩ := head
      have hfst : (updateRow uid f (k, u)).1 = k := by
        rw [updateRow]
        by_cases hk : (k == uid) = true
        · rw [if_pos hk]
        · rw [if_neg hk]
      by_cases hv : (k == v) = true
      · have hkv : k = v := beq_iff_eq.mp hv
        have hku : (k == uid) = false := by
          rw [beq_eq_false_iff_ne]
          rw [hkv]
          exact hne
        rw [List.map_cons]
        rw [show updateRow uid f (k, u) = (k, u) from by
          rw [updateRow, if_neg (by rw [hku]; exact Bool.false_ne_true)]]
        have h1 : List.find? (fun p => p.1 == v)
            ((k, u) :: List.map (updateRow uid f) tail) = some (k, u) :=
          List.find?_cons_of_pos _ hv
        have h2 : List.find? (fun p => p.1 == v) ((k, u) :: tail) = some (k, u) :=
          List.find?_cons_of_pos _ hv
        rw [h1, h2]
      · rw [List.map_cons]
        have hv2 : ¬ ((updateRow uid f (k, u)).1 == v) = true := by
          rw [hfst]
          exact hv
        have h1 : List.find? (fun p => p.1 == v)
            (updateRow uid f (k, u) :: List.map (updateRow uid f) tail)
            = List.find? (fun p => p.1 == v) (List.map (updateRow uid f) tail) :=
          List.find?_cons_of_neg _ hv2
        have h2 : List.find? (fun p => p.1 == v) ((k, u) :: tail)
            = List.find? (fun p => p.1 == v) tail :=
          List.find?_cons_of_neg _ hv
        rw [h1, h2]
        exact ih

/-- Lookup of the updated id through `updateUser`. -/
theorem getUserRow_updateUser (db : DB) (uid : Int) (f : User → User) :
    getUserRow (updateUser db uid f) uid = (getUserRow db uid).map f := by
  rw [getUserRow, getUserRow, updateUser]
  exact findRow_map_updateRow db.users uid f

/-- Lookup of any other id through `updateUser`. -/
theorem getUserRow_updateUser_ne (db : DB) (uid v : Int) (f : User → User)
    (hne : v ≠ uid) :
    getUserRow (updateUser db uid f) v = getUserRow db v := by
  rw [getUserRow, getUserRow, updateUser]
  rw [findRow_map_updateRow_ne db.users uid v f hne]

/-- Reading the spendable balance when the row is known. -/
theorem get_balance_of_row (db : DB) (uid : Int) (u : User)
    (h : getUserRow db uid = some u) : get_balance db uid = u.balance := by
  rw [get_balance, h]

/-- Reading the spendable balance when the row is missing. -/
theorem get_balance_of_no_row (db : DB) (uid : Int)
    (h : getUserRow db uid = none) : get_balance db uid = 0 := by
  rw [get_balance, h]

/-- Reading the referral balance when the row is known. -/
theorem get_referral_balance_of_row (db : DB) (uid : Int) (u : User)
    (h : getUserRow db uid = some u) :
    get_referral_balance db uid = u.referral_balance := by
  rw [get_referral_balance, h]

/-- Reading the referral balance when the row is missing. -/
theorem get_referral_balance_of_no_row (db : DB) (uid : Int)
    (h : getUserRow db uid = none) : get_referral_balance db uid = 0 := by
  rw [get_referral_balance, h]

/-- Reading the lifetime referral counter when the row is known. -/
theorem get_referral_balance_all_of_row (db : DB) (uid : Int) (u : User)
    (h : getUserRow db uid = some u) :
    get_referral_balance_all db uid = u.referral_balance_all := by
  rw [get_referral_balance_all, h]

/-- Reading the lifetime referral counter when the row is missing. -/
theorem get_referral_balance_all_of_no_row (db : DB) (uid : Int)
    (h : getUserRow db uid = none) : get_referral_balance_all db uid = 0 := by
  rw [get_referral_balance_all, h]

/-! ### Characterisation of the two conditional debits -/

/-- For a positive amount, `deduct_from_balance` succeeds iff the read balance
covers it; failure leaves the store untouched; success subtracts the amount
from the one row and changes nothing else. -/
theorem deduct_from_balance_spec (db : DB) (uid : Int) (amount : ℚ)
    (hpos : 0 < amount) :
    ((deduct_from_balance db uid amount).2 = true ↔ amount ≤ get_balance db uid)
    ∧ ((deduct_from_balance db uid amount).2 = false →
        (deduct_from_balance db uid amount).1 = db)
    ∧ ((deduct_from_balance db uid amount).2 = true →
        getUserRow (deduct_from_balance db uid amount).1 uid
          = (getUserRow db uid).map
              (fun u => { u with balance := u.balance - amount })
        ∧ (∀ v : Int, v ≠ uid →
            getUserRow (deduct_from_balance db uid amount).1 v = getUserRow db v)
        ∧ (deduct_from_balance db uid amount).1.transactions = db.transactions
        ∧ (deduct_from_balance db uid amount).1.next_transaction_id
            = db.next_transaction_id) := by
  have hn : ¬ amount ≤ 0 := not_le.mpr hpos
  by_cases h : get_balance db uid < amount
  · have he : deduct_from_balance db uid amount = (db, false) := by
      rw [deduct_from_balance, if_neg hn, if_pos h]
    rw [he]
    refine ⟨⟨fun hc => absurd hc Bool.false_ne_true,
      fun hc => absurd h (not_lt.mpr hc)⟩, fun _ => rfl, fun hc => absurd hc Bool.false_ne_true⟩
  · have he : deduct_from_balance db uid amount
        = (updateUser db uid (fun u => { u with balance := u.balance - amount }),
           true) := by
      rw [deduct_from_balance, if_neg hn, if_neg h]
    rw [he]
    refine ⟨⟨fun _ => not_lt.mp h, fun _ => rfl⟩,
      fun hc => absurd hc (by simp), fun _ => ?_⟩
    exact ⟨getUserRow_updateUser db uid _,
      fun v hv => getUserRow_updateUser_ne db uid v _ hv, rfl, rfl⟩

/-- For a positive amount, `deduct_from_referral_balance` succeeds iff the
referral balance covers it; failure leaves the store untouched; success
subtracts the amount from the one row and changes nothing else. -/
theorem deduct_from_referral_balance_spec (db : DB) (uid : Int) (amount : ℚ)
    (hpos : 0 < amount) :
    ((deduct_from_referral_balance db uid amount).2 = true
        ↔ amount ≤ get_referral_balance db uid)
    ∧ ((deduct_from_referral_balance db uid amount).2 = false →
        (deduct_from_referral_balance db uid amount).1 = db)
    ∧ ((deduct_from_referral_balance db uid amount).2 = true →
        getUserRow (deduct_from_referral_balance db uid amount).1 uid
          = (getUserRow db uid).map
              (fun u => { u with referral_balance := u.referral_balance - amount })
        ∧ (∀ v : Int, v ≠ uid →
            getUserRow (deduct_from_referral_balance db uid amount).1 v
              = getUserRow db v)
        ∧ (deduct_from_referral_balance db uid amount).1.transactions
            = db.transactions
        ∧ (deduct_from_referral_balance db uid amount).1.next_transaction_id
            = db.next_transaction_id) := by
  have hn : ¬ amount ≤ 0 := not_le.mpr hpos
  by_cases h : get_referral_balance db uid < amount
  · have he : deduct_from_referral_balance db uid amount = (db, false) := by
      rw [deduct_from_referral_balance, if_neg hn, if_pos h]
    rw [he]
    refine ⟨⟨fun hc => absurd hc Bool.false_ne_true,
      fun hc => absurd h (not_lt.mpr hc)⟩, fun _ => rfl, fun hc => absurd hc Bool.false_ne_true⟩
  · have he : deduct_from_referral_balance db uid amount
        = (updateUser db uid
            (fun u => { u with referral_balance := u.referral_balance - amount }),
           true) := by
      rw [deduct_from_referral_balance, if_neg hn, if_neg h]
    rw [he]
    refine ⟨⟨fun _ => not_lt.mp h, fun _ => rfl⟩,
      fun hc => absurd hc (by simp), fun _ => ?_⟩
    exact ⟨getUserRow_updateUser db uid _,
      fun v hv => getUserRow_updateUser_ne db uid v _ hv, rfl, rfl⟩

/-! ### Claim theorems -/

/-- C1: for every store, user and amount > 0, `deduct_from_balance` and
`deduct_from_referral_balance` return success exactly when the corresponding
current balance of the user is at least the amount; on success they subtract
the amount from that one balance field of that one row and change nothing
else; on insufficient balance they return failure and leave the whole store
unchanged. -/
theorem debit_if_sufficient_correct (db : DB) (uid : Int) (amount : ℚ)
    (hpos : 0 < amount) :
    (((deduct_from_balance db uid amount).2 = true ↔ amount ≤ get_balance db uid)
      ∧ ((deduct_from_balance db uid amount).2 = false →
          (deduct_from_balance db uid amount).1 = db)
      ∧ ((deduct_from_balance db uid amount).2 = true →
          getUserRow (deduct_from_balance db uid amount).1 uid
            = (getUserRow db uid).map
                (fun u => { u with balance := u.balance - amount })
          ∧ (∀ v : Int, v ≠ uid →
              getUserRow (deduct_from_balance db uid amount).1 v = getUserRow db v)
          ∧ (deduct_from_balance db uid amount).1.transactions = db.transactions
          ∧ (deduct_from_balance db uid amount).1.next_transaction_id
              = db.next_transaction_id))
    ∧ (((deduct_from_referral_balance db uid amount).2 = true
          ↔ amount ≤ get_referral_balance db uid)
      ∧ ((deduct_from_referral_balance db uid amount).2 = false →
          (deduct_from_referral_balance db uid amount).1 = db)
      ∧ ((deduct_from_referral_balance db uid amount).2 = true →
          getUserRow (deduct_from_referral_balance db uid amount).1 uid
            = (getUserRow db uid).map
                (fun u => { u with referral_balance := u.referral_balance - amount })
          ∧ (∀ v : Int, v ≠ uid →
              getUserRow (deduct_from_referral_balance db uid amount).1 v
                = getUserRow db v)
          ∧ (deduct_from_referral_balance db uid amount).1.transactions
              = db.transactions
          ∧ (deduct_from_referral_balance db uid amount).1.next_transaction_id
              = db.next_transaction_id)) :=
  ⟨deduct_from_balance_spec db uid amount hpos,
   deduct_from_referral_balance_spec db uid amount hpos⟩

/-- Witness for C1 at the concrete store `dbOneUser` (balance 10) and
amount 4: the positivity hypothesis holds and the success condition
evaluates. -/
theorem debit_if_sufficient_correct_witness :
    (0 : ℚ) < 4
    ∧ ((deduct_from_balance dbOneUser 7 4).2 = true ↔ 4 ≤ get_balance dbOneUser 7) :=
  ⟨by norm_num, (debit_if_sufficient_correct dbOneUser 7 4 (by norm_num)).1.1⟩

/-- C10: for every store, user and amount ≤ 0, both conditional debits return
success while performing no mutation at all: the store is returned exactly as
it was. -/
theorem deduct_nonpositive_noop (db : DB) (uid : Int) (amount : ℚ)
    (h : amount ≤ 0) :
    deduct_from_balance db uid amount = (db, true)
    ∧ deduct_from_referral_balance db uid amount = (db, true) := by
  constructor
  · rw [deduct_from_balance, if_pos h]
  · rw [deduct_from_referral_balance, if_pos h]

/-- Witness for C10 at the concrete store `dbOneUser` and amount -2. -/
theorem deduct_nonpositive_noop_witness :
    (-2 : ℚ) ≤ 0
    ∧ deduct_from_balance dbOneUser 7 (-2) = (dbOneUser, true)
    ∧ deduct_from_referral_balance dbOneUser 7 (-2) = (dbOneUser, true) :=
  ⟨by norm_num,
   (deduct_nonpositive_noop dbOneUser 7 (-2) (by norm_num)).1,
   (deduct_nonpositive_noop dbOneUser 7 (-2) (by norm_num)).2⟩

/-- C4: creating a pending transaction whose `payment_id` already exists in
the store fails — it returns the sentinel 0 instead of a fresh internal id —
and returns the store exactly unchanged, so the first transaction record is
untouched. -/
theorem duplicate_payment_id_rejected (db : DB) (pid : String) (uid : Int)
    (amount : ℚ) (meta : String) (hdup : hasPayment db pid = true) :
    create_pending_transaction db pid uid amount meta = (db, 0) := by
  rw [create_pending_transaction, if_pos hdup]

/-- Witness for C4 at the concrete store `dbPendingTxn`, which already holds
a transaction with payment id `P1`. -/
theorem duplicate_payment_id_rejected_witness :
    hasPayment dbPendingTxn "P1" = true
    ∧ create_pending_transaction dbPendingTxn "P1" 8 5 "x" = (dbPendingTxn, 0) :=
  ⟨by decide, duplicate_payment_id_rejected dbPendingTxn "P1" 8 5 "x" (by decide)⟩

/-- C5 (amended): `find_and_complete_ton_transaction` returns metadata
(`some`) exactly when a pending record with that payment id exists, and when
no pending record exists — whether the payment id is unknown or the record is
already resolved — it returns the pair `(db, none)`: the store unchanged and
the one failure value `none`, the same in both cases. -/
theorem resolve_only_pending (db : DB) (pid : String) (amount : ℚ) :
    ((find_and_complete_ton_transaction db pid amount).2.isSome
        = pendingExists db pid)
    ∧ (pendingExists db pid = false →
        find_and_complete_ton_transaction db pid amount = (db, none)) := by
  rw [find_and_complete_ton_transaction]
  cases hfind : db.transactions.find?
      (fun t => t.payment_id == pid && t.status == "pending") with
  | none =>
      have hany : pendingExists db pid = false := by
        rw [pendingExists, List.any_eq_false]
        exact List.find?_eq_none.mp hfind
      exact ⟨by rw [hany]; rfl, fun _ => rfl⟩
  | some t =>
      have hany : pendingExists db pid = true := by
        have hp := List.find?_some hfind
        have hm := List.mem_of_find?_eq_some hfind
        rw [pendingExists, List.any_eq_true]
        exact ⟨t, hm, hp⟩
      constructor
      · rw [hany]
        rfl
      · intro hfalse
        rw [hany] at hfalse
        exact absurd hfalse (by simp)

/-- C5 counterexample to "reported distinctly": resolving payment id `P1`
against a store where `P1` is already paid and against a store where `P1`
does not exist at all gives the caller the identical outcome `none` with the
store unchanged — the two failure cases are indistinguishable. -/
theorem failure_cases_not_distinct :
    find_and_complete_ton_transaction dbPaidTxn "P1" 1 = (dbPaidTxn, none)
    ∧ find_and_complete_ton_transaction dbNoUsers "P1" 1 = (dbNoUsers, none) := by
  constructor
  · simp [find_and_complete_ton_transaction, dbPaidTxn, sampleTxn, List.find?]
  · simp [find_and_complete_ton_transaction, dbNoUsers, List.find?]

/-- Witness for C5 (amended) at the already-resolved store `dbPaidTxn`. -/
theorem resolve_only_pending_witness :
    pendingExists dbPaidTxn "P1" = false
    ∧ find_and_complete_ton_transaction dbPaidTxn "P1" 1 = (dbPaidTxn, none) :=
  ⟨by decide, (resolve_only_pending dbPaidTxn "P1" 1).2 (by decide)⟩

/-- C6 (amended): the credit operations validate nothing: for every amount,
including negative ones, `add_to_balance` adds the amount to the spendable
balance and returns `True` whenever the user row exists, and
`add_to_referral_balance` adds the amount to the referral balance — there is
no `InvalidAmount` rejection anywhere. -/
theorem credit_unconditional (db : DB) (uid : Int) (amount : ℚ) (u : User)
    (hex : getUserRow db uid = some u) :
    (add_to_balance db uid amount).2 = true
    ∧ get_balance (add_to_balance db uid amount).1 uid
        = get_balance db uid + amount
    ∧ get_referral_balance (add_to_referral_balance db uid amount) uid
        = get_referral_balance db uid + amount := by
  refine ⟨?_, ?_, ?_⟩
  · show userExists db uid = true
    rw [userExists, hex]
    rfl
  · show get_balance
        (updateUser db uid (fun v => { v with balance := v.balance + amount })) uid
        = get_balance db uid + amount
    have h2 : getUserRow
        (updateUser db uid (fun v => { v with balance := v.balance + amount })) uid
        = some { u with balance := u.balance + amount } := by
      rw [getUserRow_updateUser, hex]
      rfl
    rw [get_balance_of_row _ _ _ h2, get_balance_of_row _ _ _ hex]
  · rw [add_to_referral_balance]
    have h2 : getUserRow
        (updateUser db uid
          (fun v => { v with referral_balance := v.referral_balance + amount })) uid
        = some { u with referral_balance := u.referral_balance + amount } := by
      rw [getUserRow_updateUser, hex]
      rfl
    rw [get_referral_balance_of_row _ _ _ h2, get_referral_balance_of_row _ _ _ hex]

/-- C6 counterexample: the negative credit -5 on the user with balance 10 is
not rejected — `add_to_balance` reports success and the balance drops to 5,
so a mutation was performed. -/
theorem negative_credit_accepted :
    (add_to_balance dbOneUser 7 (-5)).2 = true
    ∧ get_balance (add_to_balance dbOneUser 7 (-5)).1 7 = 5 := by
  constructor
  · decide
  · simp [add_to_balance, updateUser, updateRow, getUserRow, get_balance,
      dbOneUser, sampleUser, List.find?]
    norm_num

/-- Witness for C6 (amended) at `dbOneUser` with the negative amount -5. -/
theorem credit_unconditional_witness :
    getUserRow dbOneUser 7 = some sampleUser
    ∧ (add_to_balance dbOneUser 7 (-5)).2 = true :=
  ⟨rfl, (credit_unconditional dbOneUser 7 (-5) sampleUser rfl).1⟩

/-- C9 (amended): `add_to_referral_balance_all` with a non-negative amount
never decreases the lifetime referral counter; the decrease in the claim is
only reachable through `set_referral_balance_all`, which writes an arbitrary
value. -/
theorem add_referral_all_monotone (db : DB) (uid : Int) (amount : ℚ)
    (h : 0 ≤ amount) :
    get_referral_balance_all db uid
      ≤ get_referral_balance_all (add_to_referral_balance_all db uid amount) uid := by
  rw [add_to_referral_balance_all]
  cases hrow : getUserRow db uid with
  | none =>
      have h2 : getUserRow
          (updateUser db uid
            (fun v => { v with referral_balance_all := v.referral_balance_all + amount }))
          uid = none := by
        rw [getUserRow_updateUser, hrow]
        rfl
      rw [get_referral_balance_all_of_no_row _ _ h2,
        get_referral_balance_all_of_no_row _ _ hrow]
  | some u =>
      have h2 : getUserRow
          (updateUser db uid
            (fun v => { v with referral_balance_all := v.referral_balance_all + amount }))
          uid = some { u with referral_balance_all := u.referral_balance_all + amount } := by
        rw [getUserRow_updateUser, hrow]
        rfl
      rw [get_referral_balance_all_of_row _ _ _ h2,
        get_referral_balance_all_of_row _ _ _ hrow]
      exact le_add_of_nonneg_right h

/-- C9 counterexample: `set_referral_balance_all` is an exposed ledger
operation and writing 0 over the stored lifetime counter 10 strictly
decreases it. -/
theorem set_referral_balance_all_decreases :
    get_referral_balance_all (set_referral_balance_all dbOneUser 7 0) 7
      < get_referral_balance_all dbOneUser 7 := by
  simp [set_referral_balance_all, updateUser, updateRow, getUserRow,
    get_referral_balance_all, dbOneUser, sampleUser, List.find?]

/-- Witness for C9 (amended) at `dbOneUser` with amount 3. -/
theorem add_referral_all_monotone_witness :
    (0 : ℚ) ≤ 3
    ∧ get_referral_balance_all dbOneUser 7
        ≤ get_referral_balance_all (add_to_referral_balance_all dbOneUser 7 3) 7 :=
  ⟨by norm_num, add_referral_all_monotone dbOneUser 7 3 (by norm_num)⟩

/-- C7 (amended): the self-referral guard lives only on the back-fill branch:
for an existing user whose `referred_by` is unset, a call with
`referrer_id` equal to the user's own id leaves `referred_by` unset (only the
username is refreshed). On the new-user branch `referred_by` is stored
verbatim, so a self-referral can be recorded at creation. -/
theorem self_referral_rejected_on_backfill (db : DB) (uid : Int) (name : String)
    (now : Nat) (u : User) (hex : getUserRow db uid = some u)
    (hunset : u.referred_by = none) :
    (getUserRow (register_user_if_not_exists db uid name (some uid) now) uid).map
      User.referred_by = some none := by
  have hreg : register_user_if_not_exists db uid name (some uid) now
      = updateUser db uid (fun w => { w with username := name }) := by
    rw [register_user_if_not_exists, hex]
    dsimp only
    rw [if_neg (by simp)]
  rw [hreg, getUserRow_updateUser, hex]
  simp [hunset]

/-- C7 counterexample: registering the brand-new user 5 with `referrer_id`
equal to its own id 5 stores a self-referral: afterwards `referred_by = 5`. -/
theorem self_referral_recorded_at_insert :
    (getUserRow (register_user_if_not_exists dbNoUsers 5 "u" (some 5) 0) 5).map
      User.referred_by = some (some 5) := by
  simp [register_user_if_not_exists, getUserRow, dbNoUsers, newUser, List.find?]

/-- Witness for C7 (amended) at `dbOneUser`, whose user 7 has no referrer. -/
theorem self_referral_rejected_on_backfill_witness :
    getUserRow dbOneUser 7 = some sampleUser
    ∧ sampleUser.referred_by = none
    ∧ (getUserRow (register_user_if_not_exists dbOneUser 7 "bob" (some 7) 0) 7).map
        User.referred_by = some none :=
  ⟨rfl, rfl,
   self_referral_rejected_on_backfill dbOneUser 7 "bob" 0 sampleUser rfl rfl⟩

/-- C8: once `referred_by` holds a value, no later
`register_user_if_not_exists` call changes it, whatever `referrer_id` is
passed: the back-fill condition requires the stored value to be unset. -/
theorem referred_by_write_once (db : DB) (uid : Int) (name : String)
    (r : Option Int) (now : Nat) (u : User) (v : Int)
    (hex : getUserRow db uid = some u) (hset : u.referred_by = some v) :
    (getUserRow (register_user_if_not_exists db uid name r now) uid).map
      User.referred_by = some (some v) := by
  have hreg : register_user_if_not_exists db uid name r now
      = updateUser db uid (fun w => { w with username := name }) := by
    rw [register_user_if_not_exists, hex]
    cases r with
    | none => rfl
    | some rv =>
        dsimp only
        rw [if_neg (by simp [hset])]
  rw [hreg, getUserRow_updateUser, hex]
  simp [hset]

/-- Witness for C8 at `dbRefSet`, whose user 7 already has referrer 3; the
call passes a different referrer 9 and the stored value stays 3. -/
theorem referred_by_write_once_witness :
    getUserRow dbRefSet 7 = some { sampleUser with referred_by := some 3 }
    ∧ (getUserRow (register_user_if_not_exists dbRefSet 7 "bob" (some 9) 0) 7).map
        User.referred_by = some (some 3) :=
  ⟨rfl,
   referred_by_write_once dbRefSet 7 "bob" (some 9) 0
     { sampleUser with referred_by := some 3 } 3 rfl rfl⟩

/-! ### Step lemmas for sequences of ledger calls -/

/-- Spendable balance read through an update of the same id. -/
theorem get_balance_updateUser (db : DB) (uid : Int) (f : User → User) :
    get_balance (updateUser db uid f) uid
      = match getUserRow db uid with
        | some u => (f u).balance
        | none => 0 := by
  rw [get_balance, getUserRow_updateUser]
  cases getUserRow db uid <;> rfl

/-- Referral balance read through an update of the same id. -/
theorem get_referral_balance_updateUser (db : DB) (uid : Int) (f : User → User) :
    get_referral_balance (updateUser db uid f) uid
      = match getUserRow db uid with
        | some u => (f u).referral_balance
        | none => 0 := by
  rw [get_referral_balance, getUserRow_updateUser]
  cases getUserRow db uid <;> rfl

/-- An update whose row function preserves the `balance` field preserves the
spendable-balance read. -/
theorem get_balance_preserved_updateUser (db : DB) (uid : Int) (f : User → User)
    (hf : ∀ u, (f u).balance = u.balance) :
    get_balance (updateUser db uid f) uid = get_balance db uid := by
  rw [get_balance_updateUser, get_balance]
  cases getUserRow db uid with
  | none => rfl
  | some u => exact hf u

/-- An update whose row function preserves the `referral_balance` field
preserves the referral-balance read. -/
theorem get_referral_balance_preserved_updateUser (db : DB) (uid : Int)
    (f : User → User) (hf : ∀ u, (f u).referral_balance = u.referral_balance) :
    get_referral_balance (updateUser db uid f) uid
      = get_referral_balance db uid := by
  rw [get_referral_balance_updateUser, get_referral_balance]
  cases getUserRow db uid with
  | none => rfl
  | some u => exact hf u

/-- Row existence is preserved by `updateUser`. -/
theorem isSome_getUserRow_updateUser (db : DB) (uid : Int) (f : User → User) :
    (getUserRow (updateUser db uid f) uid).isSome
      = (getUserRow db uid).isSome := by
  rw [getUserRow_updateUser]
  cases getUserRow db uid <;> rfl

/-- `deduct_from_balance` either leaves the store untouched, or the amount
was positive and covered and the store is the single-row balance update. -/
theorem deduct_from_balance_cases (db : DB) (uid : Int) (a : ℚ) :
    (deduct_from_balance db uid a).1 = db
    ∨ (0 < a ∧ a ≤ get_balance db uid
        ∧ (deduct_from_balance db uid a).1
            = updateUser db uid (fun u => { u with balance := u.balance - a })) := by
  rw [deduct_from_balance]
  by_cases h1 : a ≤ 0
  · rw [if_pos h1]
    exact Or.inl rfl
  · rw [if_neg h1]
    by_cases h2 : get_balance db uid < a
    · rw [if_pos h2]
      exact Or.inl rfl
    · rw [if_neg h2]
      exact Or.inr ⟨not_le.mp h1, not_lt.mp h2, rfl⟩

/-- `deduct_from_referral_balance` either leaves the store untouched, or the
amount was positive and covered and the store is the single-row update. -/
theorem deduct_from_referral_balance_cases (db : DB) (uid : Int) (a : ℚ) :
    (deduct_from_referral_balance db uid a).1 = db
    ∨ (0 < a ∧ a ≤ get_referral_balance db uid
        ∧ (deduct_from_referral_balance db uid a).1
            = updateUser db uid
                (fun u => { u with referral_balance := u.referral_balance - a })) := by
  rw [deduct_from_referral_balance]
  by_cases h1 : a ≤ 0
  · rw [if_pos h1]
    exact Or.inl rfl
  · rw [if_neg h1]
    by_cases h2 : get_referral_balance db uid < a
    · rw [if_pos h2]
      exact Or.inl rfl
    · rw [if_neg h2]
      exact Or.inr ⟨not_le.mp h1, not_lt.mp h2, rfl⟩

/-- A positive `deduct_from_balance` that reported success found the balance
sufficient and performed exactly the single-row subtraction. -/
theorem deduct_from_balance_succ (db : DB) (uid : Int) (a : ℚ) (ha : 0 < a)
    (hs : (deduct_from_balance db uid a).2 = true) :
    a ≤ get_balance db uid
    ∧ (deduct_from_balance db uid a).1
        = updateUser db uid (fun u => { u with balance := u.balance - a }) := by
  by_cases h2 : get_balance db uid < a
  · exfalso
    rw [deduct_from_balance, if_neg (not_le.mpr ha), if_pos h2] at hs
    exact absurd hs (by simp)
  · constructor
    · exact not_lt.mp h2
    · rw [deduct_from_balance, if_neg (not_le.mpr ha), if_neg h2]

/-- Row existence of the tracked account is preserved by every ledger call. -/
theorem isSome_applyOp (db : DB) (uid : Int) (op : LedgerOp) :
    (getUserRow (applyOp db uid op) uid).isSome = (getUserRow db uid).isSome := by
  cases op with
  | credit a => exact isSome_getUserRow_updateUser db uid _
  | creditRef a => exact isSome_getUserRow_updateUser db uid _
  | debit a =>
      show (getUserRow (deduct_from_balance db uid a).1 uid).isSome = _
      rcases deduct_from_balance_cases db uid a with heq | ⟨_, _, heq⟩
      · rw [heq]
      · rw [heq]
        exact isSome_getUserRow_updateUser db uid _
  | debitRef a =>
      show (getUserRow (deduct_from_referral_balance db uid a).1 uid).isSome = _
      rcases deduct_from_referral_balance_cases db uid a with heq | ⟨_, _, heq⟩
      · rw [heq]
      · rw [heq]
        exact isSome_getUserRow_updateUser db uid _

/-- One ledger call with a non-negative credit amount keeps both balances of
the account non-negative. -/
theorem balOK_applyOp (db : DB) (uid : Int) (op : LedgerOp)
    (hop : creditNonneg op = true) (h : balOK db uid) :
    balOK (applyOp db uid op) uid := by
  obtain ⟨hb, hr⟩ := h
  cases op with
  | credit a =>
      have ha : 0 ≤ a := by simpa [creditNonneg] using hop
      constructor
      · show 0 ≤ get_balance (updateUser db uid _) uid
        rw [get_balance_updateUser]
        cases hrow : getUserRow db uid with
        | none => exact le_refl 0
        | some u =>
            rw [get_balance_of_row _ _ _ hrow] at hb
            exact add_nonneg hb ha
      · show 0 ≤ get_referral_balance (updateUser db uid _) uid
        rw [get_referral_balance_preserved_updateUser]
        exact hr
        exact fun u => rfl
  | creditRef a =>
      have ha : 0 ≤ a := by simpa [creditNonneg] using hop
      constructor
      · show 0 ≤ get_balance (updateUser db uid _) uid
        rw [get_balance_preserved_updateUser]
        exact hb
        exact fun u => rfl
      · show 0 ≤ get_referral_balance (updateUser db uid _) uid
        rw [get_referral_balance_updateUser]
        cases hrow : getUserRow db uid with
        | none => exact le_refl 0
        | some u =>
            rw [get_referral_balance_of_row _ _ _ hrow] at hr
            exact add_nonneg hr ha
  | debit a =>
      show balOK (deduct_from_balance db uid a).1 uid
      rcases deduct_from_balance_cases db uid a with heq | ⟨_, hle, heq⟩
      · rw [heq]
        exact ⟨hb, hr⟩
      · rw [heq]
        constructor
        · rw [get_balance_updateUser]
          cases hrow : getUserRow db uid with
          | none => exact le_refl 0
          | some u =>
              rw [get_balance_of_row _ _ _ hrow] at hle
              exact sub_nonneg.mpr hle
        · rw [get_referral_balance_preserved_updateUser]
          exact hr
          exact fun u => rfl
  | debitRef a =>
      show balOK (deduct_from_referral_balance db uid a).1 uid
      rcases deduct_from_referral_balance_cases db uid a with heq | ⟨_, hle, heq⟩
      · rw [heq]
        exact ⟨hb, hr⟩
      · rw [heq]
        constructor
        · rw [get_balance_preserved_updateUser]
          exact hb
          exact fun u => rfl
        · rw [get_referral_balance_updateUser]
          cases hrow : getUserRow db uid with
          | none => exact le_refl 0
          | some u =>
              rw [get_referral_balance_of_row _ _ _ hrow] at hle
              exact sub_nonneg.mpr hle

/-- A whole sequence of ledger calls with non-negative credit amounts keeps
both balances of the account non-negative. -/
theorem balOK_applyOps (db : DB) (uid : Int) (ops : List LedgerOp)
    (hops : ∀ op ∈ ops, creditNonneg op = true) (h : balOK db uid) :
    balOK (applyOps db uid ops) uid := by
  induction ops generalizing db with
  | nil => exact h
  | cons op rest ih =>
      show balOK (applyOps (applyOp db uid op) uid rest) uid
      exact ih (applyOp db uid op)
        (fun o ho => hops o (List.mem_cons_of_mem _ ho))
        (balOK_applyOp db uid op (hops op (List.mem_cons_self _ _)) h)

/-- C2: for every sequence of credits (with non-negative amounts) and
conditional debits on one account, starting from non-negative spendable and
referral balances, both balances are non-negative after every call of the
sequence, i.e. after every prefix of the run. -/
theorem balances_never_negative (db : DB) (uid : Int) (ops p t : List LedgerOp)
    (hops : ∀ op ∈ ops, creditNonneg op = true) (h0 : balOK db uid)
    (hsplit : p ++ t = ops) :
    balOK (applyOps db uid p) uid := by
  subst hsplit
  exact balOK_applyOps db uid p
    (fun o ho => hops o (List.mem_append_left t ho)) h0

/-- Witness for C2: the two-call run credit 5, debit 3 on `dbOneUser`, after
its prefix of length 1. -/
theorem balances_never_negative_witness :
    balOK dbOneUser 7
    ∧ balOK (applyOps dbOneUser 7 [LedgerOp.credit 5]) 7 :=
  ⟨by constructor <;> decide,
   balances_never_negative dbOneUser 7 [LedgerOp.credit 5, LedgerOp.debit 3]
     [LedgerOp.credit 5] [LedgerOp.debit 3] (by decide)
     ⟨by decide, by decide⟩ rfl⟩

/-- Running a sequence whose spendable debits are all positive and all
succeed moves the spendable balance by exactly the credit sum minus the
debit sum, provided the account row exists. -/
theorem conservation_aux (uid : Int) (ops : List LedgerOp) :
    ∀ db : DB, debitsPositive ops = true → allDebitsSucceed db uid ops = true →
      (getUserRow db uid).isSome = true →
      get_balance (applyOps db uid ops) uid
        = get_balance db uid + creditSum ops - debitSum ops := by
  induction ops with
  | nil =>
      intro db _ _ _
      show get_balance db uid = get_balance db uid + creditSum [] - debitSum []
      simp only [creditSum, debitSum]
      ring
  | cons op rest ih =>
      intro db hpos hsucc hex
      obtain ⟨u, hu⟩ := Option.isSome_iff_exists.mp hex
      have hex2 : (getUserRow (applyOp db uid op) uid).isSome = true := by
        rw [isSome_applyOp]
        exact hex
      cases op with
      | credit a =>
          have hpos2 : debitsPositive rest = true := by
            simpa [debitsPositive] using hpos
          have hsucc2 :
              allDebitsSucceed (applyOp db uid (LedgerOp.credit a)) uid rest = true := by
            simpa [allDebitsSucceed] using hsucc
          have hbal : get_balance (applyOp db uid (LedgerOp.credit a)) uid
              = get_balance db uid + a := by
            show get_balance (updateUser db uid _) uid = _
            rw [get_balance_updateUser, hu, get_balance_of_row _ _ _ hu]
          show get_balance
              (applyOps (applyOp db uid (LedgerOp.credit a)) uid rest) uid = _
          rw [ih _ hpos2 hsucc2 hex2, hbal]
          simp only [creditSum, debitSum]
          ring
      | creditRef a =>
          have hpos2 : debitsPositive rest = true := by
            simpa [debitsPositive] using hpos
          have hsucc2 :
              allDebitsSucceed (applyOp db uid (LedgerOp.creditRef a)) uid rest = true := by
            simpa [allDebitsSucceed] using hsucc
          have hbal : get_balance (applyOp db uid (LedgerOp.creditRef a)) uid
              = get_balance db uid := by
            show get_balance (updateUser db uid _) uid = _
            rw [get_balance_preserved_updateUser]
            exact fun v => rfl
          show get_balance
              (applyOps (applyOp db uid (LedgerOp.creditRef a)) uid rest) uid = _
          rw [ih _ hpos2 hsucc2 hex2, hbal]
          simp only [creditSum, debitSum]
      | debit a =>
          have hpos2 : 0 < a ∧ debitsPositive rest = true := by
            simpa [debitsPositive, Bool.and_eq_true, decide_eq_true_eq] using hpos
          have hsucc2 : (deduct_from_balance db uid a).2 = true
              ∧ allDebitsSucceed (applyOp db uid (LedgerOp.debit a)) uid rest = true := by
            simpa [allDebitsSucceed, Bool.and_eq_true] using hsucc
          obtain ⟨hle, heq⟩ :=
            deduct_from_balance_succ db uid a hpos2.1 hsucc2.1
          have hbal : get_balance (applyOp db uid (LedgerOp.debit a)) uid
              = get_balance db uid - a := by
            show get_balance (deduct_from_balance db uid a).1 uid = _
            rw [heq, get_balance_updateUser, hu, get_balance_of_row _ _ _ hu]
          show get_balance
              (applyOps (applyOp db uid (LedgerOp.debit a)) uid rest) uid = _
          rw [ih _ hpos2.2 hsucc2.2 hex2, hbal]
          simp only [creditSum, debitSum]
          ring
      | debitRef a =>
          have hpos2 : debitsPositive rest = true := by
            simpa [debitsPositive] using hpos
          have hsucc2 :
              allDebitsSucceed (applyOp db uid (LedgerOp.debitRef a)) uid rest = true := by
            simpa [allDebitsSucceed] using hsucc
          have hbal : get_balance (applyOp db uid (LedgerOp.debitRef a)) uid
              = get_balance db uid := by
            show get_balance (deduct_from_referral_balance db uid a).1 uid = _
            rcases deduct_from_referral_balance_cases db uid a with heq | ⟨_, _, heq⟩
            · rw [heq]
            · rw [heq, get_balance_preserved_updateUser]
              exact fun v => rfl
          show get_balance
              (applyOps (applyOp db uid (LedgerOp.debitRef a)) uid rest) uid = _
          rw [ih _ hpos2 hsucc2 hex2, hbal]
          simp only [creditSum, debitSum]

/-- C3 (amended): starting from balance 0 on an existing account, after a
sequence of credits and of *positive* debits that all report success, the
final spendable balance is exactly the sum of the credited amounts minus the
sum of the debited amounts. -/
theorem conservation_of_positive_debits (db : DB) (uid : Int)
    (ops : List LedgerOp) (hex : (getUserRow db uid).isSome = true)
    (h0 : get_balance db uid = 0) (hpos : debitsPositive ops = true)
    (hsucc : allDebitsSucceed db uid ops = true) :
    get_balance (applyOps db uid ops) uid = creditSum ops - debitSum ops := by
  rw [conservation_aux uid ops db hpos hsucc hex, h0]
  ring

/-- C3 counterexample to the claim as stated: on the account with balance 0,
the single debit of -1 reports success (`deduct_from_balance` returns True
for non-positive amounts) yet the final balance is 0, while the claimed value
Σcredits − Σdebits is 1. -/
theorem conservation_counterexample :
    get_balance dbZeroBal 7 = 0
    ∧ (getUserRow dbZeroBal 7).isSome = true
    ∧ allDebitsSucceed dbZeroBal 7 [LedgerOp.debit (-1)] = true
    ∧ get_balance (applyOps dbZeroBal 7 [LedgerOp.debit (-1)]) 7 = 0
    ∧ creditSum [LedgerOp.debit (-1)] - debitSum [LedgerOp.debit (-1)] = 1 := by
  refine ⟨by decide, by decide, ?_, ?_, ?_⟩
  · simp [allDebitsSucceed, deduct_from_balance, dbZeroBal, sampleUser]
  · simp [applyOps, applyOp, deduct_from_balance, get_balance, getUserRow,
      dbZeroBal, sampleUser, List.find?]
  · simp [creditSum, debitSum]

/-- Witness for C3 (amended): the run credit 5 then debit 3 from balance 0
finishes at 5 − 3. -/
theorem conservation_of_positive_debits_witness :
    debitsPositive [LedgerOp.credit 5, LedgerOp.debit 3] = true
    ∧ allDebitsSucceed dbZeroBal 7 [LedgerOp.credit 5, LedgerOp.debit 3] = true
    ∧ get_balance (applyOps dbZeroBal 7 [LedgerOp.credit 5, LedgerOp.debit 3]) 7
        = creditSum [LedgerOp.credit 5, LedgerOp.debit 3]
          - debitSum [LedgerOp.credit 5, LedgerOp.debit 3] := by
  have h1 : debitsPositive [LedgerOp.credit 5, LedgerOp.debit 3] = true := by
    decide
  have h2 : allDebitsSucceed dbZeroBal 7 [LedgerOp.credit 5, LedgerOp.debit 3]
      = true := by
    norm_num [allDebitsSucceed, applyOp, add_to_balance, deduct_from_balance,
      updateUser, updateRow, get_balance, getUserRow, userExists, dbZeroBal,
      sampleUser, List.find?]
  exact ⟨h1, h2,
    conservation_of_positive_debits dbZeroBal 7
      [LedgerOp.credit 5, LedgerOp.debit 3] (by decide) (by decide) h1 h2⟩

end ShopBot
